import Mathlib

/-!
# Verification of the travel-recommendation core

Shallow embedding of the preference-learning / ranking engine of the
repository (files `src/matching.py`, `src/data.py`, `streamlit_app.py`).

Conventions of the embedding:
* Python floats are modelled as `ℚ`; `round(x, 1)` becomes `round1`
  (`round` to the nearest integer of `10*x`, divided by `10`).
* Python dicts keyed by feature names become either total functions
  `Feature → Option ℚ` (absent key = `none`) or association lists,
  matching `dict.get` semantics.
* Python's stable `list.sort` is modelled by `List.insertionSort`,
  which Mathlib proves to be a stable sort; a stable sort's output is
  uniquely determined by the key order and the input order, so this is
  semantics-preserving.
* Randomized constructs (`random.sample`, `random.shuffle`) are modelled
  relationally: a predicate describes the set of possible outcomes.
-/

/-- The feature keys used by the matching algorithm
(`MATCHING_FEATURES` plus `avg_budget_per_day` in `matching.py`).
Keys of Python dicts outside this set are never read by any function
modelled here, so they are omitted from the embedding. -/
inductive Feature where
  | safety
  | english_level
  | crowds
  | beach
  | culture
  | nature
  | food
  | nightlife
  | adventure
  | romance
  | family
  | avg_budget_per_day
deriving DecidableEq, Fintype, Repr

open Feature

/-- The list `MATCHING_FEATURES` from `matching.py` (the eleven 1–5 scale features). -/
def MATCHING_FEATURES : List Feature :=
  [safety, english_level, crowds, beach, culture, nature, food,
   nightlife, adventure, romance, family]

/-- The list `all_features = MATCHING_FEATURES + ["avg_budget_per_day"]` that
the scoring loops iterate over. -/
def allFeatures : List Feature := MATCHING_FEATURES ++ [avg_budget_per_day]

/-- A destination record: the numeric fields of the Python destination dicts
that the modelled functions read.  `feat` holds the matching features
(including `avg_budget_per_day`); a missing dict key is `none`. -/
structure Dest where
  id : ℤ
  feat : Feature → Option ℚ
  weather_score : Option ℚ := none
  flight_price : Option ℚ := none
deriving DecidableEq

/-- A preference vector (`preference_vector` output): feature → learned value. -/
def Pref := Feature → Option ℚ

/-- Feature ranges: feature → optional (min, max); `calculate_match_score`
reads them with default `(1, 5)` as `feature_ranges.get(feature, (1, 5))`. -/
def Ranges := Feature → Option (ℚ × ℚ)

/-- Weight dicts are association lists, read via `weights.get(feature, 0)`. -/
def Weights := List (Feature × ℚ)

/-- Models `weights.get(feature, 0)`. -/
def Weights.get (w : Weights) (f : Feature) : ℚ := (w.lookup f).getD 0

/-- The table `DEFAULT_WEIGHTS` from `matching.py`. -/
def DEFAULT_WEIGHTS : Weights :=
  [(safety, 2), (english_level, 1), (crowds, 1), (beach, 1), (culture, 1),
   (nature, 1), (food, 1), (nightlife, 1), (adventure, 1), (romance, 1),
   (family, 1)]

/-- The `weights` entry of `TRAVEL_STYLES["budget_backpacker"]`. -/
def budget_backpacker_weights : Weights :=
  [(avg_budget_per_day, -3), (safety, 2), (english_level, 3/2),
   (culture, 3/2), (food, 3/2), (adventure, 3/2), (nature, 1),
   (crowds, -1/2), (beach, 1), (nightlife, 1), (romance, 1/2), (family, 1/2)]

/-- The `weights` tables of `TRAVEL_STYLES` in `matching.py`, keyed by style
name (the `name`/`description` display strings are irrelevant to scoring and
omitted). -/
def TRAVEL_STYLES : List (String × Weights) :=
  [("beach_relaxation",
    [(beach, 3), (safety, 2), (crowds, -3/2), (nature, 3/2), (romance, 1),
     (food, 1), (nightlife, 1/2), (culture, 1/2), (adventure, 1/2),
     (english_level, 1), (family, 1)]),
   ("culture_history",
    [(culture, 3), (food, 2), (safety, 3/2), (english_level, 3/2),
     (nature, 1), (romance, 1), (crowds, -1/2), (beach, 1/2),
     (nightlife, 1/2), (adventure, 1/2), (family, 1)]),
   ("adventure_nature",
    [(adventure, 3), (nature, 3), (crowds, -2), (safety, 2), (culture, 1/2),
     (beach, 1/2), (food, 1), (english_level, 1), (nightlife, 0),
     (romance, 1), (family, 1)]),
   ("foodie",
    [(food, 3), (culture, 2), (safety, 3/2), (english_level, 1),
     (nightlife, 1), (crowds, -1/2), (beach, 1/2), (nature, 1),
     (adventure, 1/2), (romance, 3/2), (family, 1)]),
   ("party_nightlife",
    [(nightlife, 3), (beach, 3/2), (safety, 3/2), (english_level, 2),
     (food, 3/2), (crowds, 1/2), (culture, 1/2), (nature, 1/2),
     (adventure, 1), (romance, 1), (family, -1)]),
   ("romantic_getaway",
    [(romance, 3), (safety, 5/2), (food, 2), (beach, 2), (crowds, -2),
     (nature, 2), (culture, 3/2), (nightlife, 1), (english_level, 1),
     (adventure, 1), (family, -1)]),
   ("family_vacation",
    [(family, 3), (safety, 3), (english_level, 2), (beach, 3/2),
     (nature, 3/2), (culture, 1), (food, 1), (adventure, 1),
     (nightlife, -3/2), (crowds, -1/2), (romance, 0)]),
   ("budget_backpacker", budget_backpacker_weights),
   ("hidden_gems",
    [(crowds, -3), (nature, 2), (culture, 3/2), (adventure, 3/2),
     (safety, 3/2), (food, 1), (english_level, 1/2), (beach, 1),
     (nightlife, 0), (romance, 3/2), (family, 1)]),
   ("balanced",
    [(safety, 2), (culture, 3/2), (nature, 3/2), (food, 3/2), (beach, 1),
     (english_level, 1), (adventure, 1), (nightlife, 1/2), (romance, 1),
     (family, 1), (crowds, -1/2)])]

/-- Models `get_travel_style_weights` from `matching.py`: the style's weights when
the style name is a key of `TRAVEL_STYLES`, else `DEFAULT_WEIGHTS`. -/
def get_travel_style_weights (style : String) : Weights :=
  ((TRAVEL_STYLES.lookup style).getD DEFAULT_WEIGHTS)

/-- Python's `round(x, 1)` on the exact rational value: round `10*x` to the
nearest integer and divide by `10`.  (Ties round half-up here; Python rounds
the binary float half-to-even — the two agree away from exact halves, and no
theorem below depends on a tie case.) -/
def round1 (q : ℚ) : ℚ := (round (10 * q) : ℤ) / 10

/-- Models `normalize_value` from `matching.py`. -/
def normalize_value (value min_val max_val : ℚ) : ℚ :=
  if max_val = min_val then 1/2
  else (value - min_val) / (max_val - min_val)

/-- Models `calculate_feature_ranges` from `matching.py`: per feature, `(min, max)`
over the values present in the pool, defaulting to `(1, 5)` when no pool item
has the feature. -/
def calculate_feature_ranges (destinations : List Dest) : Ranges :=
  fun f =>
    let values := destinations.filterMap (fun d => d.feat f)
    match values with
    | [] => some (1, 5)
    | v :: vs => some (vs.foldl min v, vs.foldl max v)

/-- Models `preference_vector` from `matching.py`: for each feature, the mean of the
values present among the chosen destinations; features present nowhere are
absent from the result; the empty choice list yields the empty dict. -/
def preference_vector (chosen : List Dest) : Pref :=
  fun f =>
    if chosen = [] then none
    else
      let values := chosen.filterMap (fun d => d.feat f)
      if values = [] then none
      else some (values.sum / values.length)

/-- Python's `if not preference` emptiness test (a dict over the modelled
feature keys is empty iff every key is absent). -/
def prefIsEmpty (p : Pref) : Bool := allFeatures.all (fun f => (p f).isNone)

/-- One iteration of the accumulation loop of `calculate_match_score`:
state is `(total_weighted_similarity, total_weight)`. -/
def matchStep (destination : Dest) (preference : Pref) (feature_ranges : Ranges)
    (weights : Weights) (acc : ℚ × ℚ) (f : Feature) : ℚ × ℚ :=
  match preference f with
  | none => acc
  | some pref_val =>
    match destination.feat f with
    | none => acc
    | some dest_value =>
      let weight := weights.get f
      if weight = 0 then acc
      else
        let mm := (feature_ranges f).getD (1, 5)
        let norm_dest := normalize_value dest_value mm.1 mm.2
        let norm_pref := normalize_value pref_val mm.1 mm.2
        let similarity := 1 - |norm_dest - norm_pref|
        let similarity := if weight < 0 then 1 - similarity else similarity
        (acc.1 + similarity * |weight|, acc.2 + |weight|)

/-- Models `calculate_match_score` from `matching.py`. -/
def calculate_match_score (destination : Dest) (preference : Pref)
    (feature_ranges : Ranges) (weights : Weights) : ℚ :=
  if prefIsEmpty preference then 50
  else
    let acc := allFeatures.foldl
      (matchStep destination preference feature_ranges weights) (0, 0)
    if acc.2 = 0 then 50
    else round1 (acc.1 / acc.2 * 100)

/-- The accumulated absolute weight over usable features (the final value of
`total_weight` in the loop of `calculate_match_score`): a feature is usable
when it is present in both the preference and the destination and has a
non-zero weight. -/
def accumulated_weight (destination : Dest) (preference : Pref)
    (weights : Weights) : ℚ :=
  allFeatures.foldl
    (fun acc f =>
      match preference f, destination.feat f with
      | some _, some _ => if weights.get f = 0 then acc else acc + |weights.get f|
      | _, _ => acc) 0

/-- Models `calculate_combined_score` from `matching.py`: blend the match score with
the destination's `weather_score` (default `50.0` when absent). -/
def calculate_combined_score (destination : Dest) (match_score : ℚ)
    (weather_weight : ℚ := 1/5) : ℚ :=
  let weather_score := (destination.weather_score).getD 50
  round1 (match_score * (1 - weather_weight) + weather_score * weather_weight)

/-- A scored destination: `ranking_destinations` returns a copy of the
destination dict with `match_score`, `weather_score` (rounded, defaulted) and
`combined_score` attached.  `dest` holds the untouched input record; the
`weather_score` field below is the value the copy's `weather_score` key is
overwritten with. -/
structure ScoredDest where
  dest : Dest
  match_score : ℚ
  weather_score : ℚ
  combined_score : ℚ
deriving DecidableEq

/-- The per-candidate body of the loop in `ranking_destinations`. -/
def score_destination (preference : Pref) (feature_ranges : Ranges)
    (weights : Weights) (use_weather : Bool) (weather_weight : ℚ)
    (dest : Dest) : ScoredDest :=
  let match_score := calculate_match_score dest preference feature_ranges weights
  let weather_score := round1 ((dest.weather_score).getD 50)
  let combined_score :=
    if use_weather then
      calculate_combined_score { dest with weather_score := some weather_score }
        match_score weather_weight
    else match_score
  ⟨dest, match_score, weather_score, combined_score⟩

/-- Models `ranking_destinations` from `matching.py`.  Python's
`sort(key=combined_score, reverse=True)` is a stable descending sort; the
output of a stable sort is uniquely determined, so `List.insertionSort` with
the descending relation models it exactly. -/
def ranking_destinations (budget_matches chosen : List Dest)
    (travel_style : String := "balanced") (use_weather : Bool := true)
    (weather_weight : ℚ := 1/5) : List ScoredDest :=
  let preference := preference_vector chosen
  let feature_ranges := calculate_feature_ranges budget_matches
  let weights := get_travel_style_weights travel_style
  let scored := budget_matches.map
    (score_destination preference feature_ranges weights use_weather weather_weight)
  scored.insertionSort (fun a b => b.combined_score ≤ a.combined_score)

/-- A destination as returned by `get_destinations_by_budget`: the input dict
plus the cost fields it attaches. -/
structure CostDest where
  dest : Dest
  total_trip_cost : ℚ
  flight_total : ℚ
  daily_total : ℚ
  num_travelers : ℕ
  budget_remaining : ℚ
deriving DecidableEq

/-- The cost enrichment performed inside `get_destinations_by_budget`
(`dest.get('flight_price') or 0` and `dest.get('avg_budget_per_day') or 0`
both yield `0` for a missing/null field, matching `Option.getD 0`). -/
def enrich_cost (total_budget : ℚ) (trip_days num_travelers : ℕ)
    (dest : Dest) : CostDest :=
  let flight_total := (dest.flight_price).getD 0 * num_travelers
  let daily_total := (dest.feat avg_budget_per_day).getD 0 * trip_days * num_travelers
  let total_cost := flight_total + daily_total
  ⟨dest, total_cost, flight_total, daily_total, num_travelers,
   total_budget - total_cost⟩

/-- Models `get_destinations_by_budget` from `data.py`, parameterized by the full
catalog (the Python function reads it from SQLite via
`get_all_destinations()`): keep destinations with total trip cost within the
budget plus 20% slack, sorted ascending by total cost (stable `list.sort`). -/
def get_destinations_by_budget (all_destinations : List Dest)
    (total_budget : ℚ) (trip_days : ℕ) (num_travelers : ℕ := 1) :
    List CostDest :=
  let kept := all_destinations.filterMap (fun dest =>
    let c := enrich_cost total_budget trip_days num_travelers dest
    if c.total_trip_cost ≤ total_budget * (6/5) then some c else none)
  kept.insertionSort (fun a b => a.total_trip_cost ≤ b.total_trip_cost)

/-- The fields of the report of `calculate_recommendation_confidence` that
feed decisions.  The display-only `emoji` and `recommendation` strings are
omitted, as is `top5_spread`: the source computes it as `variance ** 0.5`, a
square root that leaves `ℚ` and that no modelled consumer reads. -/
structure ConfidenceReport where
  confidence : ℚ
  label : String
  gap_to_second : ℚ
  top_score : ℚ
deriving DecidableEq

/-- Models `calculate_recommendation_confidence` from `matching.py`: banding on the
gap between the two top `combined_score`s and the top score, with the
confidence capped at 50 when the top score is below 50. -/
def calculate_recommendation_confidence (ranked : List ScoredDest) :
    ConfidenceReport :=
  match ranked with
  | [] => ⟨0, "No data", 0, 0⟩
  | [d] => ⟨100, "Only option", 0, d.combined_score⟩
  | a :: b :: _ =>
    let top_score := a.combined_score
    let gap := a.combined_score - b.combined_score
    let conf_label : ℚ × String :=
      if 10 ≤ gap ∧ 75 ≤ top_score then (95, "Very High")
      else if 7 ≤ gap ∧ 70 ≤ top_score then (85, "High")
      else if 4 ≤ gap ∧ 60 ≤ top_score then (70, "Good")
      else if 2 ≤ gap then (55, "Medium")
      else (40, "Low")
    let confidence := if top_score < 50 then min conf_label.1 50 else conf_label.1
    ⟨confidence, conf_label.2, round1 gap, round1 top_score⟩

/-- The constant `LOCATIONS_PER_ROUND` from `streamlit_app.py`. -/
def LOCATIONS_PER_ROUND : ℕ := 3

/-- The constant `ROUNDS` from `streamlit_app.py`. -/
def ROUNDS : ℕ := 7

/-- Models `random.sample(pool, k)`: `k` elements drawn without replacement,
returned in random order.  The possible outcomes are exactly the
permutations of length-`k` sublists of the pool. -/
def IsSample (k : ℕ) (pool out : List α) : Prop :=
  ∃ sub : List α, sub.Sublist pool ∧ sub.length = k ∧ out.Perm sub

/-- One possible outcome of the EXPLOIT sampling step of
`get_smart_round_locations` (its `len(ranked) > LOCATIONS_PER_ROUND` arm):
`selected_top` is sampled from `top_pool = ranked[:10]`, `selected_other`
from `remaining = [d for d in ranked if d not in selected_top]` (when
nonempty), and the concatenation is shuffled for display. -/
def exploit_outcome (ranked out : List ScoredDest) : Prop :=
  ∃ selected_top selected_other : List ScoredDest,
    IsSample (min 2 (ranked.take 10).length) (ranked.take 10) selected_top ∧
    (if ranked.filter (fun d => decide (d ∉ selected_top)) = []
     then selected_other = []
     else IsSample 1 (ranked.filter (fun d => decide (d ∉ selected_top)))
       selected_other) ∧
    out.Perm (selected_top ++ selected_other)

/-- One possible outcome of `get_smart_round_locations` in an EXPLOIT round
(`current_round ≥ 3` and `len(chosen) ≥ 3`), given the remaining pool
`available` (nonempty): rank it, return it whole when it holds at most
`LOCATIONS_PER_ROUND` candidates, else sample via `exploit_outcome`. -/
def smart_round_exploit (available chosen : List Dest) (travel_style : String)
    (use_weather : Bool) (out : List ScoredDest) : Prop :=
  if (ranking_destinations available chosen travel_style use_weather
        (1/5)).length ≤ LOCATIONS_PER_ROUND
  then out = ranking_destinations available chosen travel_style use_weather (1/5)
  else exploit_outcome
    (ranking_destinations available chosen travel_style use_weather (1/5)) out

/-- One possible outcome of `test_locations` from `matching.py` (also the
EXPLORE branch of `get_smart_round_locations`): the not-yet-shown pool
itself when it has at most `x` elements, else `x` of them sampled without
replacement. -/
def test_locations_outcome (budget_matches : List Dest) (id_used : List ℤ)
    (x : ℕ) (out : List Dest) : Prop :=
  if (budget_matches.filter (fun d => decide (d.id ∉ id_used))).length ≤ x
  then out = budget_matches.filter (fun d => decide (d.id ∉ id_used))
  else IsSample x (budget_matches.filter (fun d => decide (d.id ∉ id_used))) out

/-- The session fields that `process_selection` updates. -/
structure RoundState where
  chosen : List Dest
  id_used : List ℤ
  round : ℕ
deriving DecidableEq

/-- Models `process_selection` from `streamlit_app.py`: find the picked location
among the shown ones (`next(loc for loc in locations if loc["id"] ==
choice_id)`); on success append it to `chosen`, extend `id_used` with the id
of every shown location, and advance the round.  `none` models the
error-and-`False` path in which the state is untouched. -/
def process_selection (choice_id : ℤ) (locations : List Dest)
    (s : RoundState) : Option RoundState :=
  (locations.find? (fun loc => loc.id == choice_id)).map (fun picked =>
    ⟨s.chosen ++ [picked],
     s.id_used ++ locations.map (fun loc => loc.id),
     s.round + 1⟩)

/-- Well-formedness of one confirmed round, as the selectors guarantee it:
the shown candidates have pairwise distinct ids none of which was shown in
an earlier round, at most `LOCATIONS_PER_ROUND` are shown, and the user's
choice is among them. -/
def ValidRound (s : RoundState) (locations : List Dest) (choice_id : ℤ) : Prop :=
  (locations.map (fun l => l.id)).Nodup ∧
  (∀ l ∈ locations, l.id ∉ s.id_used) ∧
  locations.length ≤ LOCATIONS_PER_ROUND ∧
  (∃ l ∈ locations, l.id = choice_id)

/-- The initial session state (`chosen = []`, `id_used = []`, `round = 0`). -/
def init_state : RoundState := ⟨[], [], 0⟩

/-- A run of `n` confirmed rounds from the initial session state; `shown`
accumulates the ids shown in all rounds, in order. -/
inductive RoundTrace : RoundState → ℕ → List ℤ → Prop where
  | init : RoundTrace init_state 0 []
  | step {s : RoundState} {n : ℕ} {shown : List ℤ} {locations : List Dest}
      {choice_id : ℤ} {s' : RoundState} :
      RoundTrace s n shown →
      ValidRound s locations choice_id →
      process_selection choice_id locations s = some s' →
      RoundTrace s' (n + 1) (shown ++ locations.map (fun l => l.id))

/-! ## Concrete fixtures used by witnesses and counterexamples -/

/-- A destination with no numeric features (only an id). -/
def dBlank (i : ℤ) : Dest := ⟨i, fun _ => none, none, none⟩

/-- A destination whose only feature is a daily budget. -/
def destBudget (i : ℤ) (b : ℚ) : Dest :=
  ⟨i, fun f => if f = avg_budget_per_day then some b else none, none, none⟩

/-- A preference vector holding only `avg_budget_per_day ↦ 50`. -/
def prefBudget50 : Pref :=
  fun f => if f = avg_budget_per_day then some 50 else none

/-- Feature ranges holding only a budget range `(lo, hi)`. -/
def budgetRanges (lo hi : ℚ) : Ranges :=
  fun f => if f = avg_budget_per_day then some (lo, hi) else none

/-- An eleven-destination pool of featureless candidates. -/
def pool11 : List Dest :=
  [dBlank 0, dBlank 1, dBlank 2, dBlank 3, dBlank 4, dBlank 5, dBlank 6,
   dBlank 7, dBlank 8, dBlank 9, dBlank 10]

/-- Three featureless previously chosen destinations. -/
def chosen3 : List Dest := [dBlank 100, dBlank 101, dBlank 102]

/-- A featureless destination scored in a cold-start ranking. -/
def scored50 (d : Dest) : ScoredDest := ⟨d, 50, 50, 50⟩

/-- The first three candidates of the ranking of `pool11` — an EXPLOIT
outcome whose three members all lie inside the top 10. -/
def out012 : List ScoredDest :=
  [scored50 (dBlank 0), scored50 (dBlank 1), scored50 (dBlank 2)]

/-! ## Helper lemmas -/

/-- The second accumulator component of the `calculate_match_score` loop is
the accumulated absolute weight, independently of the ranges and of the
first component. -/
theorem foldl_matchStep_snd (destination : Dest) (preference : Pref)
    (feature_ranges : Ranges) (weights : Weights) :
    ∀ (l : List Feature) (a : ℚ × ℚ),
      (l.foldl (matchStep destination preference feature_ranges weights) a).2 =
      l.foldl (fun acc f =>
        match preference f, destination.feat f with
        | some _, some _ =>
            if weights.get f = 0 then acc else acc + |weights.get f|
        | _, _ => acc) a.2
  | [], _ => rfl
  | f :: l, a => by
    rw [List.foldl_cons, List.foldl_cons,
      foldl_matchStep_snd destination preference feature_ranges weights l]
    congr 1
    unfold matchStep
    rcases preference f with _ | pv
    · rfl
    · rcases hd : destination.feat f with _ | dv
      · rfl
      · by_cases h : weights.get f = 0 <;> simp [h]

/-- A `filterMap` that tests a predicate on the image of each element is a
`filter` after a `map`. -/
theorem filterMap_ite_eq_filter_map {α β : Type} (f : α → β) (p : β → Prop)
    [DecidablePred p] (l : List α) :
    l.filterMap (fun a => if p (f a) then some (f a) else none) =
      (l.map f).filter (fun b => decide (p b)) := by
  induction l with
  | nil => rfl
  | cons a l ih =>
      by_cases h : p (f a) <;>
        simp [List.filterMap_cons, List.filter_cons, h, ih]

/-- The mean of a nonempty list lies in any interval containing all its
elements. -/
theorem mean_mem_interval (l : List ℚ) (hne : l ≠ []) (lo hi : ℚ)
    (h : ∀ x ∈ l, lo ≤ x ∧ x ≤ hi) :
    lo ≤ l.sum / l.length ∧ l.sum / l.length ≤ hi := by
  have hlen : 0 < (l.length : ℚ) := by
    have : 0 < l.length := List.length_pos.mpr hne
    exact_mod_cast this
  have hsum_le : l.sum ≤ (l.length : ℚ) * hi := by
    have := l.sum_le_card_nsmul hi (fun x hx => (h x hx).2)
    simpa [nsmul_eq_mul] using this
  have hle_sum : (l.length : ℚ) * lo ≤ l.sum := by
    have := l.card_nsmul_le_sum lo (fun x hx => (h x hx).1)
    simpa [nsmul_eq_mul] using this
  constructor
  · rw [le_div_iff₀ hlen]
    linarith
  · rw [div_le_iff₀ hlen]
    linarith

/-! ## C2 — cold-start neutrality of the match score -/

/-- C2: `calculate_match_score` returns exactly 50 whenever the preference
vector is empty, and likewise whenever the accumulated absolute weight over
usable features is zero. -/
theorem match_score_neutral (destination : Dest) (preference : Pref)
    (feature_ranges : Ranges) (weights : Weights) :
    (prefIsEmpty preference = true →
      calculate_match_score destination preference feature_ranges weights = 50) ∧
    (accumulated_weight destination preference weights = 0 →
      calculate_match_score destination preference feature_ranges weights = 50) := by
  constructor
  · intro h
    simp [calculate_match_score, h]
  · intro h
    unfold calculate_match_score
    by_cases hp : prefIsEmpty preference = true
    · simp [hp]
    · rw [if_neg hp]
      have hsnd := foldl_matchStep_snd destination preference feature_ranges
        weights allFeatures (0, 0)
      unfold accumulated_weight at h
      have hz : (allFeatures.foldl
          (matchStep destination preference feature_ranges weights) (0, 0)).2 = 0 := by
        rw [hsnd]; exact h
      simp only [hz]
      norm_num

/-- Witness for C2 at a concrete destination and the empty preference. -/
theorem match_score_neutral_witness :
    prefIsEmpty (fun _ => none) = true ∧
    calculate_match_score (dBlank 7) (fun _ => none) (fun _ => none) [] = 50 :=
  ⟨by decide,
   (match_score_neutral (dBlank 7) (fun _ => none) (fun _ => none) []).1 (by decide)⟩

/-! ## C3 — blending a score with itself -/

/-- C3 counterexample: `calculate_combined_score` rounds its result to one
decimal, so blending the score `0.26` with a weather score of `0.26` at
weight `1/2` yields `0.3`, not `0.26`, although `0.26 ∈ [0, 100]` and
`1/2 ∈ [0, 1]`.  The claim as stated (for every score in `[0,100]`) is
therefore false. -/
theorem blend_self_counterexample :
    (0 : ℚ) ≤ 13/50 ∧ (13/50 : ℚ) ≤ 100 ∧ (0 : ℚ) ≤ 1/2 ∧ (1/2 : ℚ) ≤ 1 ∧
    calculate_combined_score ⟨0, fun _ => none, some (13/50), none⟩ (13/50) (1/2)
      = 3/10 ∧
    (3/10 : ℚ) ≠ 13/50 := by
  refine ⟨by norm_num, by norm_num, by norm_num, by norm_num, ?_, by norm_num⟩
  unfold calculate_combined_score
  norm_num [round1, round_eq]

/-- C3 amended: for every score `x ∈ [0,100]` that is a multiple of `0.1`
(one decimal place — which every stored match score is, being an output of
`round(·, 1)`), blending `x` with a secondary score equal to `x` yields
exactly `x`, for every blend weight `w ∈ [0,1]`. -/
theorem blend_self_fixed_point (destination : Dest) (x w : ℚ)
    (_hx0 : 0 ≤ x) (_hx1 : x ≤ 100) (_hw0 : 0 ≤ w) (_hw1 : w ≤ 1)
    (hsec : destination.weather_score = some x) (hdec : ∃ n : ℤ, x = n / 10) :
    calculate_combined_score destination x w = x := by
  obtain ⟨n, rfl⟩ := hdec
  unfold calculate_combined_score
  rw [hsec]
  simp only [Option.getD_some]
  have h1 : (n : ℚ)/10 * (1 - w) + (n : ℚ)/10 * w = (n : ℚ)/10 := by ring
  rw [h1, round1]
  have h2 : (10 : ℚ) * ((n : ℚ)/10) = (n : ℚ) := by field_simp
  rw [h2, round_intCast]

/-- Witness for C3 (amended) at `x = 1/2`, `w = 1/4`. -/
theorem blend_self_fixed_point_witness :
    calculate_combined_score ⟨0, fun _ => none, some (1/2), none⟩ (1/2) (1/4) = 1/2 :=
  blend_self_fixed_point ⟨0, fun _ => none, some (1/2), none⟩ (1/2) (1/4)
    (by norm_num) (by norm_num) (by norm_num) (by norm_num) rfl ⟨5, by norm_num⟩

/-! ## C9 — the preference learner computes per-feature means -/

/-- C9: `preference_vector` maps every feature present in at least one chosen
destination to the mean of that feature over the chosen items where it is
present (absent values excluded), omits features present nowhere, yields the
empty map on the empty choice list, and every learned value lies within any
interval containing all of that feature's values across the chosen items
(in particular within their `[min, max]`). -/
theorem preference_vector_mean (chosen : List Dest) :
    (chosen = [] → ∀ f, preference_vector chosen f = none) ∧
    ∀ f : Feature,
      (chosen.filterMap (fun d => d.feat f) = [] →
        preference_vector chosen f = none) ∧
      (chosen.filterMap (fun d => d.feat f) ≠ [] →
        preference_vector chosen f =
          some ((chosen.filterMap (fun d => d.feat f)).sum /
                (chosen.filterMap (fun d => d.feat f)).length)) ∧
      (∀ v lo hi : ℚ, preference_vector chosen f = some v →
        (∀ x ∈ chosen.filterMap (fun d => d.feat f), lo ≤ x ∧ x ≤ hi) →
        lo ≤ v ∧ v ≤ hi) := by
  refine ⟨?_, fun f => ⟨?_, ?_, ?_⟩⟩
  · intro h f
    subst h
    rfl
  · intro hv
    unfold preference_vector
    split
    · rfl
    · simp [hv]
  · intro hv
    have hc : chosen ≠ [] := by
      intro h
      subst h
      exact hv rfl
    unfold preference_vector
    rw [if_neg hc]
    simp [hv]
  · intro v lo hi hval hbound
    unfold preference_vector at hval
    by_cases hc : chosen = []
    · rw [if_pos hc] at hval
      exact absurd hval (by simp)
    · rw [if_neg hc] at hval
      by_cases hv : chosen.filterMap (fun d => d.feat f) = []
      · simp only [hv, if_pos rfl] at hval
        exact absurd hval (by simp)
      · simp only [hv, if_neg] at hval
        have := mean_mem_interval (chosen.filterMap (fun d => d.feat f)) hv lo hi hbound
        have hveq : v = (chosen.filterMap (fun d => d.feat f)).sum /
            (chosen.filterMap (fun d => d.feat f)).length := by
          by_contra hne
          exact hne (Option.some_injective _ hval).symm
        rw [hveq]
        exact this

/-- Witness for C9: two chosen destinations with beach values 2 and 4 learn
the mean 3, inside `[2, 4]`. -/
theorem preference_vector_mean_witness :
    preference_vector
      [⟨1, fun f => if f = beach then some 2 else none, none, none⟩,
       ⟨2, fun f => if f = beach then some 4 else none, none, none⟩] beach
      = some 3 := by
  have h := ((preference_vector_mean
    [⟨1, fun f => if f = beach then some 2 else none, none, none⟩,
     ⟨2, fun f => if f = beach then some 4 else none, none, none⟩]).2 beach).2.1
    (by decide)
  rw [h]
  norm_num [List.filterMap]

/-! ## C8 — confidence estimator bounds -/

/-- C8 counterexample: a single-element ranked list whose only
`combined_score` is `30 < 50` still gets confidence `100` (the "Only
option" branch runs before the low-top-score cap), so "for any ranked list
whose top combined_score is below 50 the confidence never exceeds 50" is
false as stated. -/
theorem confidence_low_top_counterexample :
    (calculate_recommendation_confidence [⟨dBlank 0, 30, 50, 30⟩]).confidence = 100 ∧
    (⟨dBlank 0, 30, 50, 30⟩ : ScoredDest).combined_score < 50 ∧
    ¬ (calculate_recommendation_confidence [⟨dBlank 0, 30, 50, 30⟩]).confidence ≤ 50 := by
  refine ⟨rfl, by norm_num, ?_⟩
  intro h
  have : (100 : ℚ) ≤ 50 := h
  norm_num at this

/-- C8 amended: confidence is 0 for the empty ranked list, 100 for a
single-element list, and for every ranked list with **at least two**
elements whose top `combined_score` is below 50 — the only lists the
gap/score banding applies to — the confidence never exceeds 50. -/
theorem confidence_bounds :
    ((calculate_recommendation_confidence []).confidence = 0) ∧
    (∀ d : ScoredDest, (calculate_recommendation_confidence [d]).confidence = 100) ∧
    (∀ (a b : ScoredDest) (rest : List ScoredDest), a.combined_score < 50 →
      (calculate_recommendation_confidence (a :: b :: rest)).confidence ≤ 50) := by
  refine ⟨rfl, fun d => rfl, fun a b rest h => ?_⟩
  unfold calculate_recommendation_confidence
  simp only [h, if_true, if_pos]
  exact min_le_right _ _

/-- Witness for C8 (amended) on a concrete two-element ranking with a low
top score. -/
theorem confidence_bounds_witness :
    (calculate_recommendation_confidence
      [⟨dBlank 0, 30, 50, 30⟩, ⟨dBlank 1, 20, 50, 20⟩]).confidence ≤ 50 :=
  confidence_bounds.2.2 ⟨dBlank 0, 30, 50, 30⟩ ⟨dBlank 1, 20, 50, 20⟩ []
    (by norm_num)

/-! ## C7 — the catalog budget filter -/

/-- C7: `get_destinations_by_budget` returns exactly the catalog
destinations whose total trip cost is at most `1.2 ×` the budget (as a
permutation of the cost-enriched filtered catalog, i.e. the same
destinations, no more and no fewer), sorted ascending by total trip cost. -/
theorem budget_filter_spec (all_destinations : List Dest) (total_budget : ℚ)
    (trip_days num_travelers : ℕ) :
    (get_destinations_by_budget all_destinations total_budget trip_days
        num_travelers).Pairwise
      (fun a b => a.total_trip_cost ≤ b.total_trip_cost) ∧
    (get_destinations_by_budget all_destinations total_budget trip_days
        num_travelers).Perm
      ((all_destinations.map (enrich_cost total_budget trip_days num_travelers)).filter
        (fun c => decide (c.total_trip_cost ≤ total_budget * (6/5)))) := by
  haveI : IsTotal CostDest (fun a b => a.total_trip_cost ≤ b.total_trip_cost) :=
    ⟨fun a b => le_total _ _⟩
  haveI : IsTrans CostDest (fun a b => a.total_trip_cost ≤ b.total_trip_cost) :=
    ⟨fun _ _ _ hab hbc => le_trans hab hbc⟩
  constructor
  · exact List.sorted_insertionSort _ _
  · have hperm := List.perm_insertionSort
      (fun a b : CostDest => a.total_trip_cost ≤ b.total_trip_cost)
      (all_destinations.filterMap (fun dest =>
        let c := enrich_cost total_budget trip_days num_travelers dest
        if c.total_trip_cost ≤ total_budget * (6/5) then some c else none))
    refine hperm.trans ?_
    rw [filterMap_ite_eq_filter_map
      (enrich_cost total_budget trip_days num_travelers)
      (fun c => c.total_trip_cost ≤ total_budget * (6/5)) all_destinations]

/-! ## C10 — ranking attaches scores to unmodified copies -/

/-- C10: every scored destination returned by `ranking_destinations` carries
the data of exactly one input pool destination, unchanged (the Python code
copies each dict before attaching `match_score` / `weather_score` /
`combined_score`); collectively the underlying records are a permutation of
the input pool, and in this value-semantics model the inputs themselves are
necessarily left intact. -/
theorem ranking_preserves_inputs (budget_matches chosen : List Dest)
    (travel_style : String) (use_weather : Bool) (weather_weight : ℚ) :
    ((ranking_destinations budget_matches chosen travel_style use_weather
        weather_weight).map (fun sd => sd.dest)).Perm budget_matches := by
  unfold ranking_destinations
  have hperm := List.perm_insertionSort
    (fun a b : ScoredDest => b.combined_score ≤ a.combined_score)
    (budget_matches.map (score_destination (preference_vector chosen)
      (calculate_feature_ranges budget_matches)
      (get_travel_style_weights travel_style) use_weather weather_weight))
  have hmap := hperm.map (fun sd => sd.dest)
  refine hmap.trans ?_
  rw [List.map_map]
  have : ((fun sd : ScoredDest => sd.dest) ∘
      score_destination (preference_vector chosen)
        (calculate_feature_ranges budget_matches)
        (get_travel_style_weights travel_style) use_weather weather_weight) =
      id := by
    funext d
    rfl
  rw [this, List.map_id]

/-! ## C1 — direction of the negative budget weight -/

/-- A feature absent from the budget-only preference is skipped by the
scoring loop. -/
theorem matchStep_skip (i : ℤ) (b lo hi : ℚ) (acc : ℚ × ℚ) (f : Feature)
    (hf : f ≠ avg_budget_per_day) :
    matchStep (destBudget i b) prefBudget50 (budgetRanges lo hi)
      budget_backpacker_weights acc f = acc := by
  simp only [matchStep, prefBudget50]
  rw [if_neg hf]

/-- The budget step of the scoring loop under the `budget_backpacker`
weights: weight `-3` is non-zero and negative, so the similarity is
inverted and `|−3| = 3` accumulates. -/
theorem matchStep_budget (i : ℤ) (b lo hi : ℚ) (acc : ℚ × ℚ) :
    matchStep (destBudget i b) prefBudget50 (budgetRanges lo hi)
      budget_backpacker_weights acc avg_budget_per_day =
    (acc.1 + (1 - (1 - |normalize_value b lo hi - normalize_value 50 lo hi|)) * 3,
     acc.2 + 3) := by
  have hw : budget_backpacker_weights.get avg_budget_per_day = -3 := by decide
  simp only [matchStep, prefBudget50, destBudget, budgetRanges, hw, reduceIte,
    Option.getD_some]
  norm_num

/-- The full accumulation loop under the budget-only preference. -/
theorem foldl_budget_only (i : ℤ) (b lo hi : ℚ) :
    allFeatures.foldl (matchStep (destBudget i b) prefBudget50
      (budgetRanges lo hi) budget_backpacker_weights) (0, 0) =
    ((1 - (1 - |normalize_value b lo hi - normalize_value 50 lo hi|)) * 3, 3) := by
  simp only [allFeatures, MATCHING_FEATURES, List.cons_append, List.nil_append,
    List.foldl_cons, List.foldl_nil]
  rw [matchStep_skip i b lo hi _ safety (by decide),
    matchStep_skip i b lo hi _ english_level (by decide),
    matchStep_skip i b lo hi _ crowds (by decide),
    matchStep_skip i b lo hi _ beach (by decide),
    matchStep_skip i b lo hi _ culture (by decide),
    matchStep_skip i b lo hi _ nature (by decide),
    matchStep_skip i b lo hi _ food (by decide),
    matchStep_skip i b lo hi _ nightlife (by decide),
    matchStep_skip i b lo hi _ adventure (by decide),
    matchStep_skip i b lo hi _ romance (by decide),
    matchStep_skip i b lo hi _ family (by decide),
    matchStep_budget i b lo hi _]
  norm_num

/-- Evaluation of `calculate_match_score` when the preference holds only
`avg_budget_per_day ↦ 50` under the `budget_backpacker` weights (budget
weight `-3.0`): the eleven 1–5 features are skipped (absent from the
preference), and the inverted budget similarity gives
`round1(|norm(b) − norm(50)| · 100)`. -/
theorem match_score_budget_only (i : ℤ) (b lo hi : ℚ) :
    calculate_match_score (destBudget i b) prefBudget50 (budgetRanges lo hi)
      budget_backpacker_weights =
    round1 (|normalize_value b lo hi - normalize_value 50 lo hi| * 100) := by
  have hpe : prefIsEmpty prefBudget50 = false := by decide
  unfold calculate_match_score
  rw [hpe]
  simp only [Bool.false_eq_true, if_false, foldl_budget_only]
  rw [if_neg (by norm_num)]
  congr 1
  ring

/-- Rounding a nonnegative rational with `round1` stays nonnegative. -/
theorem round1_nonneg (q : ℚ) (hq : 0 ≤ q) : 0 ≤ round1 q := by
  unfold round1
  apply div_nonneg _ (by norm_num)
  have h : (0 : ℤ) ≤ round (10 * q) := by
    rw [round_eq]
    apply Int.le_floor.mpr
    push_cast
    linarith
  exact_mod_cast h

/-- The value `round1 q` is at least `1/10` as soon as `10*q ≥ 1/2`. -/
theorem round1_pos (q : ℚ) (hq : 1/2 ≤ 10 * q) : 1/10 ≤ round1 q := by
  unfold round1
  have h : (1 : ℤ) ≤ round (10 * q) := by
    rw [round_eq]
    apply Int.le_floor.mpr
    push_cast
    linarith
  have h' : (1 : ℚ) ≤ (round (10 * q) : ℤ) := by exact_mod_cast h
  linarith

/-- C1 counterexample: with the `budget_backpacker` budget weight `-3.0`,
preference `{avg_budget_per_day: 50}` and budget range `(50, 200)`, the
candidate with `avg_budget_per_day = 200` scores `100` and the candidate
with `avg_budget_per_day = 50` scores `0` — the 200-candidate does **not**
score strictly lower, refuting the claim as stated. -/
theorem negative_weight_counterexample :
    calculate_match_score (destBudget 1 200) prefBudget50 (budgetRanges 50 200)
      budget_backpacker_weights = 100 ∧
    calculate_match_score (destBudget 2 50) prefBudget50 (budgetRanges 50 200)
      budget_backpacker_weights = 0 ∧
    ¬ (calculate_match_score (destBudget 1 200) prefBudget50 (budgetRanges 50 200)
        budget_backpacker_weights <
       calculate_match_score (destBudget 2 50) prefBudget50 (budgetRanges 50 200)
        budget_backpacker_weights) := by
  have h200 : calculate_match_score (destBudget 1 200) prefBudget50
      (budgetRanges 50 200) budget_backpacker_weights = 100 := by
    rw [match_score_budget_only]
    unfold normalize_value
    norm_num [round1, round_eq]
  have h50 : calculate_match_score (destBudget 2 50) prefBudget50
      (budgetRanges 50 200) budget_backpacker_weights = 0 := by
    rw [match_score_budget_only]
    unfold normalize_value
    norm_num [round1, round_eq]
  refine ⟨h200, h50, ?_⟩
  rw [h200, h50]
  norm_num

/-- C1 amended: under the `budget_backpacker` budget weight `-3.0` and the
learned preference `{avg_budget_per_day: 50}`, for every feature range
`(lo, hi)` covering both values (`lo ≤ 50`, `200 ≤ hi`), the candidate with
`avg_budget_per_day = 200` scores at least as high as the candidate with
`avg_budget_per_day = 50`, and strictly **higher** whenever the range is no
wider than `300000` (beyond that both round to `0`): the negative-weight
inversion rewards distance from the preference instead of implementing
"lower is better". -/
theorem negative_weight_rewards_distance (lo hi : ℚ)
    (hlo : lo ≤ 50) (hhi : 200 ≤ hi) :
    calculate_match_score (destBudget 2 50) prefBudget50 (budgetRanges lo hi)
      budget_backpacker_weights ≤
    calculate_match_score (destBudget 1 200) prefBudget50 (budgetRanges lo hi)
      budget_backpacker_weights ∧
    (hi - lo ≤ 300000 →
      calculate_match_score (destBudget 2 50) prefBudget50 (budgetRanges lo hi)
        budget_backpacker_weights <
      calculate_match_score (destBudget 1 200) prefBudget50 (budgetRanges lo hi)
        budget_backpacker_weights) := by
  have hne : hi ≠ lo := by linarith
  have hpos : (0 : ℚ) < hi - lo := by linarith
  have h50 : calculate_match_score (destBudget 2 50) prefBudget50
      (budgetRanges lo hi) budget_backpacker_weights = 0 := by
    rw [match_score_budget_only]
    simp [round1, sub_self, round_zero]
  have h200 : calculate_match_score (destBudget 1 200) prefBudget50
      (budgetRanges lo hi) budget_backpacker_weights =
      round1 (15000 / (hi - lo)) := by
    rw [match_score_budget_only]
    unfold normalize_value
    rw [if_neg hne, if_neg hne]
    congr 1
    have hdiff : (200 - lo) / (hi - lo) - (50 - lo) / (hi - lo) =
        150 / (hi - lo) := by
      field_simp
      norm_num
    rw [hdiff, abs_of_pos (by positivity)]
    field_simp
    ring
  constructor
  · rw [h50, h200]
    exact round1_nonneg _ (by positivity)
  · intro hwidth
    rw [h50, h200]
    have hq : (1 : ℚ)/2 ≤ 10 * (15000 / (hi - lo)) := by
      rw [show (10 : ℚ) * (15000 / (hi - lo)) = 150000 / (hi - lo) by ring,
        le_div_iff₀ hpos]
      linarith
    have := round1_pos _ hq
    linarith

/-- Witness for C1 (amended) at the concrete range `(50, 200)`. -/
theorem negative_weight_rewards_distance_witness :
    calculate_match_score (destBudget 2 50) prefBudget50 (budgetRanges 50 200)
      budget_backpacker_weights <
    calculate_match_score (destBudget 1 200) prefBudget50 (budgetRanges 50 200)
      budget_backpacker_weights :=
  (negative_weight_rewards_distance 50 200 (by norm_num) (by norm_num)).2
    (by norm_num)

/-! ## C4 — ranking order, determinism, tie-breaking -/

/-- Rounding an integer value with `round1` returns it unchanged. -/
theorem round1_coe_int (n : ℤ) : round1 ((n : ℚ)) = n := by
  unfold round1
  rw [show (10 : ℚ) * (n : ℚ) = ((10 * n : ℤ) : ℚ) by push_cast; ring,
    round_intCast]
  push_cast
  rw [mul_comm]
  exact mul_div_cancel_right₀ _ (by norm_num)

/-- C4: the list returned by `ranking_destinations` is non-increasing in
`combined_score`; the function is deterministic (identical inputs give the
identical list); and a tied pair keeps the relative order it had in the
scored pool (original pool order). -/
theorem ranking_sorted_deterministic_stable (budget_matches chosen : List Dest)
    (travel_style : String) (use_weather : Bool) (weather_weight : ℚ) :
    (ranking_destinations budget_matches chosen travel_style use_weather
        weather_weight).Pairwise
      (fun a b => b.combined_score ≤ a.combined_score) ∧
    ranking_destinations budget_matches chosen travel_style use_weather
        weather_weight =
      ranking_destinations budget_matches chosen travel_style use_weather
        weather_weight ∧
    (∀ a b : ScoredDest,
      [a, b].Sublist (budget_matches.map (score_destination
        (preference_vector chosen) (calculate_feature_ranges budget_matches)
        (get_travel_style_weights travel_style) use_weather weather_weight)) →
      a.combined_score = b.combined_score →
      [a, b].Sublist (ranking_destinations budget_matches chosen travel_style
        use_weather weather_weight)) := by
  haveI : IsTotal ScoredDest (fun a b => b.combined_score ≤ a.combined_score) :=
    ⟨fun _ _ => le_total _ _⟩
  haveI : IsTrans ScoredDest (fun a b => b.combined_score ≤ a.combined_score) :=
    ⟨fun _ _ _ hab hbc => le_trans hbc hab⟩
  refine ⟨?_, rfl, ?_⟩
  · unfold ranking_destinations
    exact List.sorted_insertionSort _ _
  · intro a b hsub heq
    unfold ranking_destinations
    exact List.pair_sublist_insertionSort heq.ge hsub

/-- The ranking scores a featureless destination 50/50/50 when nothing has
been learned from the (featureless) chosen list. -/
theorem score_destination_blank (pool chs : List Dest) (i : ℤ)
    (hpe : prefIsEmpty (preference_vector chs) = true) :
    score_destination (preference_vector chs) (calculate_feature_ranges pool)
      (get_travel_style_weights "balanced") false (1/5) (dBlank i) =
      scored50 (dBlank i) := by
  unfold score_destination scored50
  have hm : calculate_match_score (dBlank i) (preference_vector chs)
      (calculate_feature_ranges pool) (get_travel_style_weights "balanced")
      = 50 := by
    simp [calculate_match_score, hpe]
  have hw : round1 (((dBlank i).weather_score).getD 50) = 50 := by
    show round1 ((none : Option ℚ).getD 50) = 50
    rw [Option.getD_none,
      show (50 : ℚ) = ((50 : ℤ) : ℚ) by norm_num, round1_coe_int]
  rw [hm, hw]
  simp

/-- Witness for C4 on a concrete two-candidate cold-start pool: the two
all-tied candidates appear in the output in their original pool order. -/
theorem ranking_sorted_deterministic_stable_witness :
    [scored50 (dBlank 0), scored50 (dBlank 1)].Sublist
      (ranking_destinations [dBlank 0, dBlank 1] [] "balanced" false (1/5)) := by
  have h := (ranking_sorted_deterministic_stable [dBlank 0, dBlank 1] []
    "balanced" false (1/5)).2.2 (scored50 (dBlank 0)) (scored50 (dBlank 1))
  have hmap : ([dBlank 0, dBlank 1].map (score_destination
      (preference_vector []) (calculate_feature_ranges [dBlank 0, dBlank 1])
      (get_travel_style_weights "balanced") false (1/5))) =
      [scored50 (dBlank 0), scored50 (dBlank 1)] := by
    rw [List.map_cons, List.map_cons, List.map_nil,
      score_destination_blank _ _ 0 (by decide),
      score_destination_blank _ _ 1 (by decide)]
  rw [hmap] at h
  exact h (List.Sublist.refl _) rfl

/-! ## C5 — the EXPLOIT round sampling -/

/-- Cold-start ranking of the featureless 11-candidate pool: everything
scores 50 and the stable sort keeps the pool order. -/
theorem ranking_pool11 :
    ranking_destinations pool11 chosen3 "balanced" false (1/5) =
      pool11.map scored50 := by
  simp only [ranking_destinations]
  have hmap : pool11.map (score_destination (preference_vector chosen3)
      (calculate_feature_ranges pool11)
      (get_travel_style_weights "balanced") false (1/5)) =
      pool11.map scored50 := by
    apply List.map_congr_left
    intro a ha
    fin_cases ha <;> exact score_destination_blank pool11 chosen3 _ (by decide)
  rw [hmap]
  apply List.Sorted.insertionSort_eq
  decide

/-- One concrete possible outcome of the EXPLOIT sampling on the ranked
11-candidate pool: the sampler picks ranks 1 and 2 from the top-10 and then
rank 3 — also inside the top 10 — from the remaining pool. -/
theorem exploit_scenario : exploit_outcome (pool11.map scored50) out012 := by
  refine ⟨[scored50 (dBlank 0), scored50 (dBlank 1)], [scored50 (dBlank 2)],
    ⟨[scored50 (dBlank 0), scored50 (dBlank 1)], by decide, by decide, by decide⟩,
    ?_, by decide⟩
  rw [if_neg (by decide)]
  exact ⟨[scored50 (dBlank 2)], by decide, by decide, by decide⟩

/-- C5 counterexample: an EXPLOIT round on an 11-candidate remaining pool
(strictly more than 3 candidates) can return three candidates **all** of
which lie inside the top 10 of the ranking: the third pick is sampled from
the whole ranking minus the two already picked, not from outside the top
10.  This refutes "1 is drawn from the rest of the ranking (outside that
top 10)". -/
theorem exploit_inside_top10_counterexample :
    smart_round_exploit pool11 chosen3 "balanced" false out012 ∧
    LOCATIONS_PER_ROUND <
      (ranking_destinations pool11 chosen3 "balanced" false (1/5)).length ∧
    out012.length = 3 ∧
    ∀ x ∈ out012,
      x ∈ (ranking_destinations pool11 chosen3 "balanced" false (1/5)).take 10 := by
  refine ⟨?_, ?_, rfl, ?_⟩
  · unfold smart_round_exploit
    rw [ranking_pool11, if_neg (by decide)]
    exact exploit_scenario
  · rw [ranking_pool11]
    decide
  · intro x hx
    rw [ranking_pool11]
    fin_cases hx <;> decide

/-- Structure of every possible EXPLOIT sampling outcome on a
duplicate-free ranking of more than 3 candidates: exactly 3 candidates,
of which 2 distinct ones come from the top 10 and the remaining 1 comes
from the ranking minus those two (anywhere in the ranking). -/
theorem exploit_outcome_structure (ranked out : List ScoredDest)
    (hnd : ranked.Nodup) (hlen : 3 < ranked.length)
    (h : exploit_outcome ranked out) :
    out.length = 3 ∧
    ∃ top2 other, out.Perm (top2 ++ [other]) ∧ top2.length = 2 ∧ top2.Nodup ∧
      (∀ x ∈ top2, x ∈ ranked.take 10) ∧ other ∈ ranked ∧ other ∉ top2 := by
  obtain ⟨top, oth, ⟨sub, hsubl, hsublen, hperm_top⟩, hoth, hperm_out⟩ := h
  have h2 : min 2 (ranked.take 10).length = 2 := by
    rw [List.length_take]
    omega
  rw [h2] at hsublen
  have hsub_ranked : List.Sublist sub ranked :=
    hsubl.trans (List.take_sublist _ _)
  have hsub_nodup : sub.Nodup := hsub_ranked.nodup hnd
  have htop_nodup : top.Nodup := hperm_top.nodup_iff.mpr hsub_nodup
  have htop_len : top.length = 2 := hperm_top.length_eq.trans hsublen
  have htop_mem : ∀ x ∈ top, x ∈ ranked.take 10 :=
    fun x hx => hsubl.subset (hperm_top.subset hx)
  have hrem_ne : ranked.filter (fun d => decide (d ∉ top)) ≠ [] := by
    intro hnil
    have hall : ∀ x ∈ ranked, x ∈ top := by
      intro x hx
      by_contra hxt
      have : ranked.filter (fun d => decide (d ∉ top)) ≠ [] := by
        apply List.ne_nil_of_mem (a := x)
        rw [List.mem_filter]
        exact ⟨hx, by simpa using hxt⟩
      exact this hnil
    have hcard : ranked.length ≤ top.length := by
      have h1 : ranked.toFinset.card = ranked.length :=
        List.toFinset_card_of_nodup hnd
      have h2 : ranked.toFinset ⊆ top.toFinset := by
        intro x hx
        rw [List.mem_toFinset] at hx ⊢
        exact hall x hx
      have h3 : ranked.toFinset.card ≤ top.toFinset.card :=
        Finset.card_le_card h2
      have h4 : top.toFinset.card ≤ top.length := top.toFinset_card_le
      omega
    omega
  rw [if_neg hrem_ne] at hoth
  obtain ⟨sub1, hsub1, hlen1, hperm1⟩ := hoth
  obtain ⟨s, rfl⟩ := List.length_eq_one.mp hlen1
  have hoth_eq : oth = [s] := List.perm_singleton.mp hperm1
  subst hoth_eq
  have hs_mem : s ∈ ranked.filter (fun d => decide (d ∉ top)) :=
    hsub1.subset (List.mem_singleton_self s)
  rw [List.mem_filter] at hs_mem
  refine ⟨?_, top, s, hperm_out, htop_len, htop_nodup, htop_mem,
    hs_mem.1, by simpa using hs_mem.2⟩
  rw [hperm_out.length_eq, List.length_append, htop_len]
  rfl

/-- The ranking of a pool with pairwise distinct ids has no duplicate
entries. -/
theorem ranking_nodup (budget_matches chosen : List Dest)
    (travel_style : String) (use_weather : Bool) (weather_weight : ℚ)
    (hids : (budget_matches.map (fun d => d.id)).Nodup) :
    (ranking_destinations budget_matches chosen travel_style use_weather
      weather_weight).Nodup := by
  have hpool : budget_matches.Nodup := hids.of_map
  have hinj : Function.Injective (score_destination (preference_vector chosen)
      (calculate_feature_ranges budget_matches)
      (get_travel_style_weights travel_style) use_weather weather_weight) :=
    fun a b h => congrArg ScoredDest.dest h
  have hscored := hpool.map hinj
  unfold ranking_destinations
  exact (List.perm_insertionSort _ _).nodup_iff.mpr hscored

/-- C5 amended: in every EXPLOIT round where more than `LOCATIONS_PER_ROUND`
candidates remain (and the remaining pool has pairwise distinct ids), every
possible outcome of the selector consists of exactly 3 candidates shuffled
for display: 2 distinct ones drawn without replacement from the top 10 of
the ranking, plus 1 drawn from the rest of the ranking **excluding only
those two** — it may therefore also lie inside the top 10. -/
theorem exploit_selection (available chosen : List Dest) (travel_style : String)
    (use_weather : Bool) (out : List ScoredDest)
    (hids : (available.map (fun d => d.id)).Nodup)
    (hlen : LOCATIONS_PER_ROUND <
      (ranking_destinations available chosen travel_style use_weather
        (1/5)).length)
    (hout : smart_round_exploit available chosen travel_style use_weather out) :
    out.length = 3 ∧
    ∃ top2 other, out.Perm (top2 ++ [other]) ∧ top2.length = 2 ∧ top2.Nodup ∧
      (∀ x ∈ top2, x ∈ (ranking_destinations available chosen travel_style
        use_weather (1/5)).take 10) ∧
      other ∈ ranking_destinations available chosen travel_style use_weather
        (1/5) ∧
      other ∉ top2 := by
  unfold smart_round_exploit at hout
  rw [if_neg (not_le.mpr hlen)] at hout
  exact exploit_outcome_structure _ _
    (ranking_nodup available chosen travel_style use_weather (1/5) hids)
    hlen hout

/-- Witness for C5 (amended) on the concrete 11-candidate EXPLOIT round. -/
theorem exploit_selection_witness : out012.length = 3 :=
  (exploit_selection pool11 chosen3 "balanced" false out012
    (by decide)
    (by rw [ranking_pool11]; decide)
    (by
      unfold smart_round_exploit
      rw [ranking_pool11, if_neg (by decide)]
      exact exploit_scenario)).1

/-! ## C6 — effect of a confirmed choice and the session invariant -/

/-- The success case of `process_selection`: the picked destination is the
shown one carrying the chosen id, and the three state fields are updated by
append / extend / increment. -/
theorem process_selection_eq (choice_id : ℤ) (locations : List Dest)
    (s s' : RoundState)
    (h : process_selection choice_id locations s = some s') :
    ∃ picked, picked ∈ locations ∧ picked.id = choice_id ∧
      s'.chosen = s.chosen ++ [picked] ∧
      s'.id_used = s.id_used ++ locations.map (fun l => l.id) ∧
      s'.round = s.round + 1 := by
  unfold process_selection at h
  rcases hfind : locations.find? (fun loc => loc.id == choice_id) with _ | picked
  · rw [hfind] at h
    cases h
  · rw [hfind] at h
    rw [Option.map_some'] at h
    injection h with h'
    refine ⟨picked, List.mem_of_find?_eq_some hfind, ?_, ?_, ?_, ?_⟩
    · have hp := List.find?_some hfind
      exact eq_of_beq hp
    · rw [← h']
    · rw [← h']
    · rw [← h']

/-- Membership in a ranking projects to membership in the pool. -/
theorem ranking_mem_dest {sd : ScoredDest} {pool chs : List Dest}
    {style : String} {uw : Bool} {ww : ℚ}
    (h : sd ∈ ranking_destinations pool chs style uw ww) : sd.dest ∈ pool := by
  unfold ranking_destinations at h
  rw [List.mem_insertionSort, List.mem_map] at h
  obtain ⟨d, hd, rfl⟩ := h
  exact hd

/-- A ranking of a pool with pairwise distinct ids has pairwise distinct
underlying ids. -/
theorem ranking_ids_nodup (pool chs : List Dest) (style : String) (uw : Bool)
    (ww : ℚ) (hids : (pool.map (fun d => d.id)).Nodup) :
    ((ranking_destinations pool chs style uw ww).map
      (fun sd => sd.dest.id)).Nodup := by
  unfold ranking_destinations
  have hperm := (List.perm_insertionSort
    (fun a b : ScoredDest => b.combined_score ≤ a.combined_score)
    (pool.map (score_destination (preference_vector chs)
      (calculate_feature_ranges pool) (get_travel_style_weights style)
      uw ww))).map (fun sd => sd.dest.id)
  apply hperm.nodup_iff.mpr
  rw [List.map_map]
  exact hids

/-- C6: a confirmed choice appends the picked destination to `chosen`,
appends the id of **every** shown candidate to `id_used`, and increments the
round counter; along every valid `n`-round session from the initial state,
`chosen` has exactly `n` entries and `id_used` is exactly the concatenation
of all shown ids — duplicate-free, of size between `n` and
`n·LOCATIONS_PER_ROUND`; and both the EXPLORE and the EXPLOIT selector only
emit rounds satisfying the validity assumptions (pairwise distinct ids,
none already used, at most `LOCATIONS_PER_ROUND` shown). -/
theorem choice_round_invariants :
    (∀ (choice_id : ℤ) (locations : List Dest) (s s' : RoundState),
      process_selection choice_id locations s = some s' →
      ∃ picked, picked ∈ locations ∧ picked.id = choice_id ∧
        s'.chosen = s.chosen ++ [picked] ∧
        s'.id_used = s.id_used ++ locations.map (fun l => l.id) ∧
        s'.round = s.round + 1) ∧
    (∀ (s : RoundState) (n : ℕ) (shown : List ℤ), RoundTrace s n shown →
      s.chosen.length = n ∧ s.round = n ∧ s.id_used = shown ∧
      s.id_used.Nodup ∧ n ≤ s.id_used.length ∧
      s.id_used.length ≤ n * LOCATIONS_PER_ROUND) ∧
    (∀ (budget_matches : List Dest) (id_used : List ℤ) (out : List Dest),
      (budget_matches.map (fun d => d.id)).Nodup →
      test_locations_outcome budget_matches id_used LOCATIONS_PER_ROUND out →
      (out.map (fun l => l.id)).Nodup ∧ (∀ l ∈ out, l.id ∉ id_used) ∧
      out.length ≤ LOCATIONS_PER_ROUND) ∧
    (∀ (available chosen : List Dest) (travel_style : String)
      (use_weather : Bool) (id_used : List ℤ) (out : List ScoredDest),
      (available.map (fun d => d.id)).Nodup →
      (∀ d ∈ available, d.id ∉ id_used) →
      smart_round_exploit available chosen travel_style use_weather out →
      (out.map (fun sd => sd.dest.id)).Nodup ∧
      (∀ sd ∈ out, sd.dest.id ∉ id_used) ∧
      out.length ≤ LOCATIONS_PER_ROUND) := by
  refine ⟨process_selection_eq, ?_, ?_, ?_⟩
  · intro s n shown htr
    induction htr with
    | init => exact ⟨rfl, rfl, rfl, List.nodup_nil, le_refl 0, Nat.zero_le 0⟩
    | @step s0 n0 shown0 locs cid s1 htr hv hps ih =>
      obtain ⟨hlen, hround, hid, hnodup, hge, hle⟩ := ih
      obtain ⟨hv1, hv2, hv3, l0, hl0, hl0id⟩ := hv
      obtain ⟨picked, hmem, hpid, hch, hidu, hrd⟩ :=
        process_selection_eq _ _ _ _ hps
      have hlocpos : 0 < locs.length :=
        List.length_pos.mpr (List.ne_nil_of_mem hl0)
      refine ⟨?_, ?_, ?_, ?_, ?_, ?_⟩
      · rw [hch, List.length_append, hlen]
        rfl
      · rw [hrd, hround]
      · rw [hidu, hid]
      · rw [hidu, List.nodup_append]
        refine ⟨hnodup, hv1, ?_⟩
        intro a ha hamem
        obtain ⟨l, hl, hlid⟩ := List.mem_map.mp hamem
        exact hv2 l hl (hlid ▸ ha)
      · rw [hidu, List.length_append, List.length_map]
        omega
      · rw [hidu, List.length_append, List.length_map]
        have h3 : locs.length ≤ LOCATIONS_PER_ROUND := hv3
        calc s0.id_used.length + locs.length
            ≤ n0 * LOCATIONS_PER_ROUND + LOCATIONS_PER_ROUND := by omega
          _ = (n0 + 1) * LOCATIONS_PER_ROUND := by ring
  · intro budget_matches id_used out hids hout
    unfold test_locations_outcome at hout
    have hremids : ((budget_matches.filter
        (fun d => decide (d.id ∉ id_used))).map (fun d => d.id)).Nodup :=
      ((List.filter_sublist budget_matches).map _).nodup hids
    have hremfresh : ∀ l ∈ budget_matches.filter
        (fun d => decide (d.id ∉ id_used)), l.id ∉ id_used := by
      intro l hl
      rw [List.mem_filter] at hl
      simpa using hl.2
    by_cases hc : (budget_matches.filter
        (fun d => decide (d.id ∉ id_used))).length ≤ LOCATIONS_PER_ROUND
    · rw [if_pos hc] at hout
      subst hout
      exact ⟨hremids, hremfresh, hc⟩
    · rw [if_neg hc] at hout
      obtain ⟨sub, hsubl, hsublen, hperm⟩ := hout
      have hsubids : (sub.map (fun d => d.id)).Nodup :=
        (hsubl.map _).nodup hremids
      refine ⟨(hperm.map (fun d => d.id)).nodup_iff.mpr hsubids, ?_, ?_⟩
      · intro l hl
        exact hremfresh l (hsubl.subset (hperm.subset hl))
      · rw [hperm.length_eq, hsublen]
  · intro available chosen travel_style use_weather id_used out hids hfresh hout
    unfold smart_round_exploit at hout
    by_cases hc : (ranking_destinations available chosen travel_style
        use_weather (1/5)).length ≤ LOCATIONS_PER_ROUND
    · rw [if_pos hc] at hout
      subst hout
      refine ⟨ranking_ids_nodup _ _ _ _ _ hids, ?_, ?_⟩
      · intro sd hsd
        exact hfresh _ (ranking_mem_dest hsd)
      · exact hc
    · rw [if_neg hc] at hout
      have h3 : 3 < (ranking_destinations available chosen travel_style
          use_weather (1/5)).length := not_le.mp hc
      obtain ⟨hlen3, top2, other, hperm, htlen, htnd, htmem, homem, honot⟩ :=
        exploit_outcome_structure _ _
          (ranking_nodup available chosen travel_style use_weather (1/5) hids)
          h3 hout
      have hout_nd : out.Nodup := by
        apply hperm.nodup_iff.mpr
        rw [List.nodup_append]
        refine ⟨htnd, List.nodup_singleton _, ?_⟩
        intro a ha hb
        rw [List.mem_singleton] at hb
        subst hb
        exact honot ha
      have hsub : ∀ sd ∈ out, sd ∈ ranking_destinations available chosen
          travel_style use_weather (1/5) := by
        intro sd hsd
        have hm := hperm.subset hsd
        rw [List.mem_append] at hm
        rcases hm with hm | hm
        · exact (List.take_sublist _ _).subset (htmem _ hm)
        · rw [List.mem_singleton] at hm
          subst hm
          exact homem
      have hrnd := ranking_ids_nodup available chosen travel_style
        use_weather (1/5) hids
      refine ⟨?_, ?_, ?_⟩
      · apply List.Nodup.map_on ?_ hout_nd
        intro x hx y hy hxy
        exact List.inj_on_of_nodup_map hrnd (hsub x hx) (hsub y hy) hxy
      · intro sd hsd
        exact hfresh _ (ranking_mem_dest (hsub sd hsd))
      · rw [hlen3]
        decide

/-- Witness for C6: one confirmed round showing a single destination with
id 5 reaches the state `⟨[dBlank 5], [5], 1⟩`: one chosen entry, one used
id, no duplicates. -/
theorem choice_round_invariants_witness :
    (⟨[dBlank 5], [5], 1⟩ : RoundState).chosen.length = 1 ∧
    (⟨[dBlank 5], [5], 1⟩ : RoundState).id_used.Nodup ∧
    1 ≤ (⟨[dBlank 5], [5], 1⟩ : RoundState).id_used.length := by
  have hv : ValidRound init_state [dBlank 5] 5 :=
    ⟨by decide, by simp [init_state], by decide, dBlank 5, by simp, rfl⟩
  have hps : process_selection 5 [dBlank 5] init_state =
      some ⟨[dBlank 5], [5], 1⟩ := rfl
  have htr : RoundTrace ⟨[dBlank 5], [5], 1⟩ 1
      ([] ++ [dBlank 5].map (fun l => l.id)) :=
    RoundTrace.step RoundTrace.init hv hps
  have h := choice_round_invariants.2.1 _ 1 _ htr
  exact ⟨h.1, h.2.2.2.1, h.2.2.2.2.1⟩
